import Mathlib

/-!
# Verification of the nix-data NixOS package cache (`src/cache/nixos.rs`)

A shallow embedding of the cache pipeline of `nix-data`:

* `nixospkgs` — the cache cycle for the system package index: resolve the
  locally observed NixOS version, resolve the remote channel version via a
  redirect, check the version marker for a cache hit, otherwise fetch the
  index document, rebuild the SQLite store from scratch (schema creation
  plus two bulk imports through an external `sqlite3` subprocess), and
  finally rewrite the marker.
* `getnixospkgs` — collect declared package attributes from configuration
  files and point-resolve each against the built store.
* `createdb` — the plain-variant store builder.

External effects (process spawns, HTTP, SQLite calls) are modelled by an
oracle environment `Env` recording each call's result, and the observable
file-system state by `FS` (cache directory, marker content, artifact
presence).  Machine-level behaviour that the Rust code relies on —
`String::from_utf8`, byte-range indexing `&s[0..5]` and its panic
conditions — is embedded at the byte level.
-/

namespace NixData

/-- Error classes surfaced out of the cache cycle. -/
inductive Err where
  | ioError          -- any io/reqwest/sqlx error propagated with `?`
  | utf8Error        -- `String::from_utf8` failed
  | noPathSegments   -- context "No path segments found"
  | lastNotFound     -- context "Last element not found"
  | fetchFailed      -- anyhow "Failed to download latest packages.json"
  deriving Repr, DecidableEq

/-- Outcome of running a fallible Rust function that may also panic:
`ok` models `Ok(_)`, `err` models an `Err(_)` propagated with `?` or
`anyhow!`, `panic` models an unwinding panic (slice index out of bounds,
`expect` on a failed parse). -/
inductive Outcome (α : Type) where
  | ok : α → Outcome α
  | err : Err → Outcome α
  | panic : Outcome α
  deriving Repr, DecidableEq

/-! ## UTF-8 decoding and byte slicing

`nixospkgs` and `nixosoptions` both run
`&String::from_utf8(versionout.stdout)?[0..5]`: the stdout bytes are
decoded (a `?`-propagated error on invalid UTF-8) and then indexed by the
byte range `0..5`, which per Rust's `str` indexing panics when the string
is shorter than 5 bytes or byte 5 is not a character boundary. -/

/-- Is `b` a UTF-8 continuation byte `0x80..=0xBF`? -/
def contByte (b : Nat) : Bool := 0x80 ≤ b && b ≤ 0xBF

/-- Valid second byte of a 3-byte sequence headed by `b` (excludes overlong
encodings for `0xE0` and surrogates for `0xED`). -/
def validSecond3 (b c : Nat) : Bool :=
  if b == 0xE0 then 0xA0 ≤ c && c ≤ 0xBF
  else if b == 0xED then 0x80 ≤ c && c ≤ 0x9F
  else contByte c

/-- Valid second byte of a 4-byte sequence headed by `b` (excludes overlong
encodings for `0xF0` and code points above `0x10FFFF` for `0xF4`). -/
def validSecond4 (b c : Nat) : Bool :=
  if b == 0xF0 then 0x90 ≤ c && c ≤ 0xBF
  else if b == 0xF4 then 0x80 ≤ c && c ≤ 0x8F
  else contByte c

/-- Strict UTF-8 decoding of a byte sequence, as `String::from_utf8`:
`none` on any ill-formed sequence, otherwise the decoded characters. -/
def utf8DecodeAux : List Nat → Option (List Char)
  | [] => some []
  | b :: rest =>
    if b ≤ 0x7F then (utf8DecodeAux rest).map (Char.ofNat b :: ·)
    else if b < 0xC2 then none
    else if b ≤ 0xDF then
      match rest with
      | c :: rest2 =>
        if contByte c then
          (utf8DecodeAux rest2).map
            (Char.ofNat ((b - 0xC0) * 64 + (c - 0x80)) :: ·)
        else none
      | [] => none
    else if b ≤ 0xEF then
      match rest with
      | c :: d :: rest2 =>
        if validSecond3 b c && contByte d then
          (utf8DecodeAux rest2).map
            (Char.ofNat ((b - 0xE0) * 4096 + (c - 0x80) * 64 + (d - 0x80)) :: ·)
        else none
      | _ => none
    else if b ≤ 0xF4 then
      match rest with
      | c :: d :: e :: rest2 =>
        if validSecond4 b c && contByte d && contByte e then
          (utf8DecodeAux rest2).map
            (Char.ofNat
              ((b - 0xF0) * 262144 + (c - 0x80) * 4096 +
                (d - 0x80) * 64 + (e - 0x80)) :: ·)
        else none
      | _ => none
    else none

/-- Take the prefix of `cs` occupying exactly `n` UTF-8 bytes.  `none`
when the total byte length is below `n` or `n` falls inside a character —
exactly the cases where Rust's `&s[0..n]` panics. -/
def takeBytesAux : List Char → Nat → Option (List Char)
  | _, 0 => some []
  | [], _ + 1 => none
  | c :: cs, n + 1 =>
    if c.utf8Size ≤ n + 1 then
      (takeBytesAux cs (n + 1 - c.utf8Size)).map (c :: ·)
    else none

/-- Byte length of a character sequence under UTF-8. -/
def utf8Len (cs : List Char) : Nat := (cs.map Char.utf8Size).sum

/-- There is a character boundary at byte offset `n` of `cs`: some prefix
of whole characters occupies exactly `n` bytes. -/
def hasBoundaryAt (cs : List Char) (n : Nat) : Prop :=
  ∃ k, utf8Len (cs.take k) = n

/-- `let numver = &String::from_utf8(versionout.stdout)?[0..5]`: decode
the stdout bytes (error on invalid UTF-8), then slice the first five bytes
(panic when no character boundary sits at byte 5). -/
def numverFromStdout (bytes : List Nat) : Outcome String :=
  match utf8DecodeAux bytes with
  | none => .err .utf8Error
  | some cs =>
    match takeBytesAux cs 5 with
    | some pre => .ok (String.mk pre)
    | none => .panic

/-- `if numver == "22.11" { "unstable" } else { numver }`. -/
def normVersion (numver : String) : String :=
  if numver = "22.11" then "unstable" else numver

/-! ## The decoded index document

The Rust record types `NixosPkgList`, `NixosPkg`, `Meta` and `StrOrVec`
live in the crate's `cache` module root, outside the file under
verification; they are reconstructed here from the spec. -/

/-- Structured JSON values (`serde_json::Value`) carried opaquely by the
`maintainers` / `license` / `platforms` meta fields. -/
inductive Json where
  | null : Json
  | bool : Bool → Json
  | num : Int → Json
  | str : String → Json
  | arr : List Json → Json
  | obj : List (String × Json) → Json

mutual

/-- Serialize a JSON value to text (`serde_json::to_string`). -/
def Json.render : Json → String
  | .null => "null"
  | .bool true => "true"
  | .bool false => "false"
  | .num n => toString n
  | .str s => "\"" ++ s ++ "\""
  | .arr xs => "[" ++ Json.renderList xs ++ "]"
  | .obj xs => "\x7b" ++ Json.renderObj xs ++ "\x7d"

/-- Comma-separated rendering of an array's elements. -/
def Json.renderList : List Json → String
  | [] => ""
  | [x] => Json.render x
  | x :: xs => Json.render x ++ "," ++ Json.renderList xs

/-- Comma-separated rendering of an object's fields. -/
def Json.renderObj : List (String × Json) → String
  | [] => ""
  | [(k, v)] => "\"" ++ k ++ "\":" ++ Json.render v
  | (k, v) :: xs => "\"" ++ k ++ "\":" ++ Json.render v ++ "," ++ Json.renderObj xs

end

/-- `serde_json::to_string` with its `Result` signature; serialization of
a `serde_json::Value` cannot in fact fail, so this is always `ok`. -/
def jsonToString (j : Json) : Except Unit String := .ok j.render

/-- Modelled from the spec: `homepage` is "string or list-of-string" (§6),
"a tagged variant \x7bSingle(string), List(sequence of string)\x7d" (§9) —
the crate's `StrOrVec`, declared in the `cache` module root. -/
inductive StrOrVec where
  | Single : String → StrOrVec
  | List : List String → StrOrVec
  deriving Repr, DecidableEq

/-- Modelled from the spec: the nested `meta` block of an extended-variant
record (§3, §6): optional booleans `broken`/`insecure`/`unsupported`/
`unfree`, optional strings `description`/`longdescription`/`position`,
optional string-or-list `homepage`, optional structured JSON
`maintainers`/`license`/`platforms`. -/
structure Meta where
  broken : Option Bool
  insecure : Option Bool
  unsupported : Option Bool
  unfree : Option Bool
  description : Option String
  longdescription : Option String
  homepage : Option StrOrVec
  maintainers : Option Json
  position : Option String
  license : Option Json
  platforms : Option Json

/-- Modelled from the spec: an extended-variant record carries `system`,
`pname`, `version` and a nested `meta` block (§6). -/
structure NixosPkg where
  system : String
  pname : String
  version : String
  meta : Meta

/-- Modelled from the spec: the extended index document, "a mapping from
attribute string to a record" (§4.3) — the crate's `NixosPkgList`;
the mapping is embedded as an association list. -/
structure NixosPkgList where
  packages : List (String × NixosPkg)

/-- Modelled from the spec: a plain-variant record carries only `pname`
and `version` (§6). -/
structure NixPkg where
  pname : String
  version : String
  deriving Repr, DecidableEq

/-- Modelled from the spec: the plain index document — the crate's
`NixPkgList`. -/
structure NixPkgList where
  packages : List (String × NixPkg)
  deriving Repr, DecidableEq

/-! ## The bulk-load row transforms

`nixospkgs` serializes one CSV tuple per document entry for the `pkgs`
table and one for the `meta` table; `None` fields are rendered by the
`csv` crate as empty cells. -/

/-- The `pkgs` tuple `(pkg, data.system, data.pname, data.version)`
serialized for the extended-variant bulk import. -/
def pkgsTuple (pkg : String) (data : NixosPkg) : List String :=
  [pkg, data.system, data.pname, data.version]

/-- One transformed `meta` row; field order follows the `serialize` call. -/
structure MetaRow where
  attr : String
  broken : Nat
  insecure : Nat
  unsupported : Nat
  unfree : Nat
  description : Option String
  longdescription : Option String
  homepage : Option String
  maintainers : Option String
  position : Option String
  license : Option String
  platforms : Option String
  deriving Repr, DecidableEq

/-- `if let Some(x) = flag { if x { 1 } else { 0 } } else { 0 }`. -/
def boolFlag : Option Bool → Nat
  | some x => if x then 1 else 0
  | none => 0

/-- `.and_then(|x| match serde_json::to_string(x) { Ok(x) => Some(x),
Err(_) => None })` applied to an optional structured value. -/
def jsonField (o : Option Json) : Option String :=
  o.bind fun x =>
    match jsonToString x with
    | .ok s => some s
    | .error _ => none

/-- The `meta` tuple `nixospkgs` serializes for one document entry
(`metawtr.serialize((pkg, ...))`). -/
def metaTuple (pkg : String) (data : NixosPkg) : MetaRow where
  attr := pkg
  broken := boolFlag data.meta.broken
  insecure := boolFlag data.meta.insecure
  unsupported := boolFlag data.meta.unsupported
  unfree := boolFlag data.meta.unfree
  description := data.meta.description
  longdescription := data.meta.longdescription
  homepage :=
    data.meta.homepage.bind fun x =>
      match x with
      | StrOrVec.List xs => xs.head?
      | StrOrVec.Single s => some s
  maintainers := jsonField data.meta.maintainers
  position := data.meta.position
  license := jsonField data.meta.license
  platforms := jsonField data.meta.platforms

/-- The delimited cells of a `meta` row as the `csv` crate writes them: an
absent (`None`) field becomes an empty cell. -/
def MetaRow.cells (r : MetaRow) : List String :=
  [r.attr, toString r.broken, toString r.insecure,
    toString r.unsupported, toString r.unfree,
    r.description.getD "", r.longdescription.getD "", r.homepage.getD "",
    r.maintainers.getD "", r.position.getD "", r.license.getD "",
    r.platforms.getD ""]

/-- All `meta` rows of a document, in document order. -/
def metaRows (doc : NixosPkgList) : List MetaRow :=
  doc.packages.map fun pd => metaTuple pd.1 pd.2

/-- All `pkgs` tuples of a document, in document order. -/
def pkgsRows (doc : NixosPkgList) : List (List String) :=
  doc.packages.map fun pd => pkgsTuple pd.1 pd.2

deriving instance DecidableEq for Except

/-! ## The `nixospkgs` cache cycle

Every external call the function makes is recorded by one oracle field of
`Env`, in program order; the observable file-system state is `FS`. -/

/-- Modelled from the spec: the "process-wide cache-directory constant"
(§9), the crate's `CACHEDIR` static; its concrete value is irrelevant to
every claim. -/
def CACHEDIR : String := "cachedir"

/-- The artifact path `format!("\x7b\x7d/nixospkgs.db", &*CACHEDIR)`. -/
def dbPath : String := CACHEDIR ++ "/nixospkgs.db"

/-- The HTTP response to the `packages.json.br` GET: its status class and,
when the body is later parsed, the decoded document (`none` models a body
that fails to parse as `NixosPkgList`). -/
structure FetchResp where
  statusSuccess : Bool
  body : Option NixosPkgList

/-- Oracle for one `sqlite3` bulk-import subprocess: whether `spawn`
succeeds, whether writing the CSV data to its stdin succeeds, and the
result of `wait` (an io error, or the child's exit code). -/
structure Subproc where
  spawnOk : Bool
  stdinWriteOk : Bool
  waitResult : Except Unit Nat

/-- Results of the external calls of one `nixospkgs` cycle, in program
order. -/
structure Env where
  /-- `Command::new("nixos-version").output()`: io error or stdout bytes. -/
  versionCmdOut : Except Unit (List Nat)
  /-- `fs::create_dir_all(&*CACHEDIR)` succeeds. -/
  mkdirOk : Bool
  /-- `reqwest::blocking::get(&verurl)`: io error, or the final response
  URL's path segments (`none` inside means `path_segments()` was `None`). -/
  redirectResp : Except Unit (Option (List String))
  /-- `reqwest::blocking::Client::builder().brotli(true).build()` succeeds. -/
  clientBuildOk : Bool
  /-- `client.get(url).send()`: io error or the response. -/
  fetchResult : Except Unit FetchResp
  /-- `fs::remove_file` on the old artifact succeeds. -/
  removeFileOk : Bool
  /-- `Sqlite::create_database(&db)` succeeds. -/
  createDbOk : Bool
  /-- `SqlitePool::connect(&db)` succeeds. -/
  connectOk : Bool
  /-- `CREATE TABLE "pkgs"` succeeds. -/
  createPkgsTableOk : Bool
  /-- `CREATE TABLE "meta"` succeeds. -/
  createMetaTableOk : Bool
  /-- `CREATE UNIQUE INDEX "attributes"` succeeds. -/
  idxAttrOk : Bool
  /-- `CREATE UNIQUE INDEX "metaattributes"` succeeds. -/
  idxMetaAttrOk : Bool
  /-- `CREATE INDEX "pnames"` succeeds. -/
  idxPnameOk : Bool
  /-- The `sqlite3 -csv ... ".import '|cat -' pkgs"` subprocess. -/
  pkgsImport : Subproc
  /-- The `sqlite3 -csv ... ".import '|cat -' meta"` subprocess. -/
  metaImport : Subproc
  /-- `File::create(.../nixospkgs.ver)` succeeds (truncating the file). -/
  markerCreateOk : Bool
  /-- `write_all` of the version into the marker file succeeds. -/
  markerWriteOk : Bool

/-- Observable file-system state of the cache directory. -/
structure FS where
  /-- The cache directory exists. -/
  cacheDirExists : Bool
  /-- Content of `nixospkgs.ver` (`none`: missing or unreadable). -/
  marker : Option String
  /-- `nixospkgs.db` exists. -/
  artifactExists : Bool
  deriving Repr, DecidableEq

/-- `Command::new("nixos-version").output()?` followed by the UTF-8 decode
and the `[0..5]` byte slice. -/
def numverStage (env : Env) : Outcome String :=
  match env.versionCmdOut with
  | .error _ => .err .ioError
  | .ok bytes => numverFromStdout bytes

/-- Cache-directory creation: `if !Path::new(&*CACHEDIR).exists()
{ fs::create_dir_all(&*CACHEDIR)?; }`. -/
def ensureCacheDir (env : Env) (fs : FS) : Outcome Unit × FS :=
  if fs.cacheDirExists then (.ok (), fs)
  else if env.mkdirOk then (.ok (), { fs with cacheDirExists := true })
  else (.err .ioError, fs)

/-- `latestnixosver.strip_prefix("nixos-").unwrap_or(&latestnixosver)`:
remove a leading `nixos-` when present (six ASCII characters, so the
byte-level strip coincides with the character-level one). -/
def stripNixosPrefix (seg : String) : String :=
  if seg.data.take 6 = "nixos-".data then String.mk (seg.data.drop 6)
  else seg

/-- Remote version resolution: follow the channel redirect, take the last
path segment of the final URL, strip a leading `nixos-`. -/
def latestFromRedirect (env : Env) : Except Err String :=
  match env.redirectResp with
  | .error _ => .error .ioError
  | .ok none => .error .noPathSegments
  | .ok (some segs) =>
    match segs.getLast? with
    | none => .error .lastNotFound
    | some seg => .ok (stripNixosPrefix seg)

/-- One bulk-import subprocess as the code runs it: `spawn()?`, write the
CSV data to stdin with `write_all(..)?`, then `let _status = cmd.wait()?;`
— the `wait` io error propagates but the child's exit status is
discarded. -/
def runImport (sp : Subproc) : Except Err Unit :=
  if !sp.spawnOk then .error .ioError
  else if !sp.stdinWriteOk then .error .ioError
  else
    match sp.waitResult with
    | .error _ => .error .ioError
    | .ok _ => .ok ()

/-- The rebuild from `Sqlite::create_database` on: create the database
file, connect, create the schema, parse the response body (`expect` — a
parse failure panics), bulk-import `pkgs` then `meta`, and finally
rewrite the version marker (`File::create` truncates it, `write_all`
fills it). -/
def rebuildRest (env : Env) (fs1 : FS) (latest : String)
    (body : Option NixosPkgList) : Outcome String × FS :=
  if !env.createDbOk then (.err .ioError, fs1)
  else
    let fs2 := { fs1 with artifactExists := true }
    if !env.connectOk then (.err .ioError, fs2)
    else if !env.createPkgsTableOk then (.err .ioError, fs2)
    else if !env.createMetaTableOk then (.err .ioError, fs2)
    else if !env.idxAttrOk then (.err .ioError, fs2)
    else if !env.idxMetaAttrOk then (.err .ioError, fs2)
    else if !env.idxPnameOk then (.err .ioError, fs2)
    else
      match body with
      | none => (.panic, fs2)
      | some pkgjson =>
        let _data := pkgsRows pkgjson
        match runImport env.pkgsImport with
        | .error e => (.err e, fs2)
        | .ok _ =>
          let _metadata := metaRows pkgjson
          match runImport env.metaImport with
          | .error e => (.err e, fs2)
          | .ok _ =>
            if !env.markerCreateOk then (.err .ioError, fs2)
            else
              let fs3 := { fs2 with marker := some "" }
              if env.markerWriteOk then
                (.ok dbPath, { fs3 with marker := some latest })
              else (.err .ioError, fs3)

/-- The store rebuild inside `if resp.status().is_success()`: delete any
old artifact (`fs::remove_file` behind an existence check), then rebuild
from scratch. -/
def rebuildStore (env : Env) (fs : FS) (latest : String)
    (body : Option NixosPkgList) : Outcome String × FS :=
  if fs.artifactExists then
    if env.removeFileOk then
      rebuildRest env { fs with artifactExists := false } latest body
    else (.err .ioError, fs)
  else rebuildRest env fs latest body

/-- The `nixospkgs` cache cycle over oracle `env` and file system `fs`:
returns the artifact path and the final file-system state. -/
def nixospkgs (env : Env) (fs : FS) : Outcome String × FS :=
  match numverStage env with
  | .err e => (.err e, fs)
  | .panic => (.panic, fs)
  | .ok numver =>
    let _version := normVersion numver
    match ensureCacheDir env fs with
    | (.err e, fs1) => (.err e, fs1)
    | (.panic, fs1) => (.panic, fs1)
    | (.ok _, fs1) =>
      match latestFromRedirect env with
      | .error e => (.err e, fs1)
      | .ok latest =>
        let hit : Bool :=
          match fs1.marker with
          | some prevver => prevver == latest && fs1.artifactExists
          | none => false
        if hit then (.ok dbPath, fs1)
        else
          if !env.clientBuildOk then (.err .ioError, fs1)
          else
            match env.fetchResult with
            | .error _ => (.err .ioError, fs1)
            | .ok resp =>
              if resp.statusSuccess then rebuildStore env fs1 latest resp.body
              else (.err .fetchFailed, fs1)

/-! ## Attribute collection (`getnixospkgs`, first block)

For each declaration path the code runs
`nix_editor::read::getarrvals(&fs::read_to_string(path)?, "environment.systemPackages")`:
the file read propagates its error with `?`, while a parse failure is only
an `if let Ok(..)` guard and the source is skipped.  The external
configuration reader `getarrvals` is abstracted as a function argument;
each path is represented by the result of reading it. -/

/-- The body of the collection loop of `getnixospkgs`, with `allpkgs` as
the accumulator: a read error aborts the whole fold, a parse failure
(`if let Ok(filepkgs) = getarrvals(..)`) skips the source. -/
def collectPkgsAux (getarrvals : String → Except Unit (List String))
    (allpkgs : Finset String) :
    List (Except Unit String) → Except Unit (Finset String)
  | [] => .ok allpkgs
  | r :: rest =>
    match r with
    | .error e => .error e
    | .ok content =>
      match getarrvals content with
      | .ok filepkgs =>
        collectPkgsAux getarrvals (allpkgs ∪ filepkgs.toFinset) rest
      | .error _ => collectPkgsAux getarrvals allpkgs rest

/-- The package-set collection of `getnixospkgs`: fold the sources' read
results starting from the empty set.  `getarrvals` is the external
configuration-reader collaborator, one read result per declaration path. -/
def collectPkgs (getarrvals : String → Except Unit (List String))
    (reads : List (Except Unit String)) : Except Unit (Finset String) :=
  collectPkgsAux getarrvals ∅ reads

/-- The union `S₁ ∪ ... ∪ Sₙ` the spec ascribes to AttributeCollector:
each source contributes its parsed attribute set, an unparsable source
contributes `∅`. -/
def specUnion (getarrvals : String → Except Unit (List String))
    (contents : List String) : Finset String :=
  (contents.map fun c =>
    match getarrvals c with
    | .ok vs => vs.toFinset
    | .error _ => (∅ : Finset String)).foldr (· ∪ ·) ∅

/-! ## Query resolution (`getnixospkgs`, query loop) -/

/-- One row of the `pkgs` table. -/
structure PkgRow where
  attr : String
  pname : String
  version : String
  deriving Repr, DecidableEq

/-- `SELECT pname, version FROM pkgs WHERE attribute = $1` followed by
`if sqlout.len() == 1 { out.insert(pkg, row.get("version")) }`: the
version when exactly one row matches, `none` otherwise. -/
def lookup1 (db : List PkgRow) (pkg : String) : Option String :=
  match db.filter fun r => r.attr == pkg with
  | [r] => some r.version
  | _ => none

/-- The query loop of `getnixospkgs`: one point lookup per declared
identifier, keeping only unique matches. -/
def resolveOut (db : List PkgRow) (pkgs : List String) :
    List (String × String) :=
  pkgs.filterMap fun pkg => (lookup1 db pkg).map fun v => (pkg, v)

/-! ## Schema creation DDL

The `CREATE TABLE` / `CREATE INDEX` statements of `nixospkgs` (extended
variant) and `createdb` (plain variant), transcribed as data. -/

/-- One `CREATE [UNIQUE] INDEX name ON table (column)` statement. -/
structure IndexDef where
  name : String
  table : String
  column : String
  unique : Bool
  deriving Repr, DecidableEq

/-- The index statements run by `nixospkgs` for the extended store. -/
def nixospkgsIndexes : List IndexDef :=
  [⟨"attributes", "pkgs", "attribute", true⟩,
   ⟨"metaattributes", "meta", "attribute", true⟩,
   ⟨"pnames", "pkgs", "pname", false⟩]

/-- The index statements run by `createdb` for the plain store.  Note the
source: `CREATE INDEX "pnames" ON "pkgs" ("attribute")` — the non-unique
index is declared on the `attribute` column. -/
def createdbIndexes : List IndexDef :=
  [⟨"attributes", "pkgs", "attribute", true⟩,
   ⟨"pnames", "pkgs", "attribute", false⟩]

/-- Columns of the `pkgs` table in the extended store. -/
def nixospkgsPkgsColumns : List String :=
  ["attribute", "system", "pname", "version"]

/-- Columns of the `pkgs` table in the plain store. -/
def createdbPkgsColumns : List String :=
  ["attribute", "pname", "version"]

/-- The spec's scenario record for C6: `meta.broken` absent,
`meta.homepage = ["https://x", "https://y"]`. -/
def scenarioPkg : NixosPkg where
  system := "x86_64-linux"
  pname := "a"
  version := "1.0"
  meta :=
    { broken := none
      insecure := some false
      unsupported := none
      unfree := some true
      description := some "d"
      longdescription := none
      homepage := some (StrOrVec.List ["https://x", "https://y"])
      maintainers := some (Json.arr [Json.str "m"])
      position := none
      license := some (Json.str "mit")
      platforms := none }

/-- The one-entry document holding the scenario record. -/
def scenarioDoc : NixosPkgList := ⟨[("pkgA", scenarioPkg)]⟩

/-! ## Concrete cycle instances

A fully successful oracle environment and a stale file system, reused by
the witnesses and counterexamples of the cycle-level claims. -/

/-- A bulk-import subprocess that spawns, accepts its stdin and exits 0. -/
def okImport : Subproc := ⟨true, true, .ok 0⟩

/-- An environment in which every external call succeeds: the local
version reads `"23.05.12"`, the channel redirect resolves to
`nixos-23.05.1234`, the fetch returns success with an empty document. -/
def env0 : Env where
  versionCmdOut := .ok [50, 51, 46, 48, 53, 46, 49, 50]
  mkdirOk := true
  redirectResp := .ok (some ["nixos-23.05.1234"])
  clientBuildOk := true
  fetchResult := .ok ⟨true, some ⟨[]⟩⟩
  removeFileOk := true
  createDbOk := true
  connectOk := true
  createPkgsTableOk := true
  createMetaTableOk := true
  idxAttrOk := true
  idxMetaAttrOk := true
  idxPnameOk := true
  pkgsImport := okImport
  metaImport := okImport
  markerCreateOk := true
  markerWriteOk := true

/-- A stale cache: marker `"22.05"`, artifact present. -/
def fs0 : FS := ⟨true, some "22.05", true⟩

/-- `env0` with a `pkgs` bulk-import subprocess that starts but exits
with status 1. -/
def env0badPkgs : Env := { env0 with pkgsImport := ⟨true, true, .ok 1⟩ }

/-- `env0` with a `meta` bulk-import subprocess that starts but exits
with status 2. -/
def env0badMeta : Env := { env0 with metaImport := ⟨true, true, .ok 2⟩ }

/-! ## Stage-outcome vocabulary

Predicates over the oracle environment describing whether each pipeline
stage, as the code runs it, succeeds. -/

/-- All seven store/schema-creation calls (`create_database`, `connect`,
two `CREATE TABLE`s, three `CREATE INDEX`es) succeed. -/
def schemaStageOk (env : Env) : Bool :=
  env.createDbOk && env.connectOk && env.createPkgsTableOk &&
    env.createMetaTableOk && env.idxAttrOk && env.idxMetaAttrOk &&
    env.idxPnameOk

/-- A bulk-import subprocess succeeds *as the code checks it*: spawn,
stdin write and `wait` all return without an io error.  The child's exit
status is deliberately absent — `let _status = cmd.wait()?` discards
it. -/
def importOk (sp : Subproc) : Bool :=
  sp.spawnOk && sp.stdinWriteOk &&
    (match sp.waitResult with
      | .ok _ => true
      | .error _ => false)

/-- The version-resolution stage fails: either the local version cannot
be determined or the remote redirect does not resolve. -/
def versionResolutionFails (env : Env) : Prop :=
  (∀ nv, numverStage env ≠ .ok nv) ∨ ∀ v, latestFromRedirect env ≠ .ok v

/-- The fetch stage fails: client construction or the GET errors, or the
response has a non-success status. -/
def fetchFails (env : Env) : Prop :=
  env.clientBuildOk = false ∨ env.fetchResult = .error ()
    ∨ ∃ resp, env.fetchResult = .ok resp ∧ resp.statusSuccess = false

/-- The decode stage fails: the fetched body does not parse as
`NixosPkgList`. -/
def decodeFails (env : Env) : Prop :=
  ∃ resp, env.fetchResult = .ok resp ∧ resp.body = none

/-- The schema-creation stage fails. -/
def schemaFails (env : Env) : Prop := schemaStageOk env = false

/-- A bulk-load stage fails in the sense the code can observe (spawn,
stdin write or wait errors — not an abnormal exit status). -/
def bulkImportFailsAsCoded (env : Env) : Prop :=
  importOk env.pkgsImport = false ∨ importOk env.metaImport = false

/-! ## Supporting lemmas -/

theorem utf8Len_nil : utf8Len [] = 0 := rfl

theorem utf8Len_cons (c : Char) (cs : List Char) :
    utf8Len (c :: cs) = c.utf8Size + utf8Len cs := by
  simp [utf8Len]

/-- A prefix occupies at most the whole sequence's byte length. -/
theorem utf8Len_take_le (cs : List Char) (k : Nat) :
    utf8Len (cs.take k) ≤ utf8Len cs := by
  conv_rhs => rw [← List.take_append_drop k cs]
  unfold utf8Len
  rw [List.map_append, List.sum_append]
  exact Nat.le_add_right _ _

/-- The byte-exact prefix extraction succeeds exactly when a character
boundary sits at byte offset `n`. -/
theorem takeBytesAux_isSome_iff (cs : List Char) (n : Nat) :
    (takeBytesAux cs n).isSome ↔ hasBoundaryAt cs n := by
  induction cs generalizing n with
  | nil =>
    cases n with
    | zero =>
      simp only [takeBytesAux, Option.isSome_some, true_iff, hasBoundaryAt]
      exact ⟨0, rfl⟩
    | succ m =>
      simp only [takeBytesAux, Option.isSome_none, Bool.false_eq_true,
        false_iff, hasBoundaryAt]
      rintro ⟨k, hk⟩
      simp [utf8Len] at hk
  | cons c cs ih =>
    cases n with
    | zero =>
      simp only [takeBytesAux, Option.isSome_some, true_iff, hasBoundaryAt]
      exact ⟨0, rfl⟩
    | succ m =>
      simp only [takeBytesAux]
      by_cases hle : c.utf8Size ≤ m + 1
      · rw [if_pos hle]
        have hmap :
            (Option.map (fun x => c :: x)
              (takeBytesAux cs (m + 1 - c.utf8Size))).isSome
              = (takeBytesAux cs (m + 1 - c.utf8Size)).isSome := by
          cases takeBytesAux cs (m + 1 - c.utf8Size) <;> rfl
        rw [hmap, ih]
        unfold hasBoundaryAt
        constructor
        · rintro ⟨k, hk⟩
          refine ⟨k + 1, ?_⟩
          rw [List.take_succ_cons, utf8Len_cons, hk]
          omega
        · rintro ⟨k, hk⟩
          cases k with
          | zero => simp [utf8Len] at hk
          | succ k' =>
            rw [List.take_succ_cons, utf8Len_cons] at hk
            exact ⟨k', by omega⟩
      · rw [if_neg hle]
        simp only [Option.isSome_none, Bool.false_eq_true, false_iff,
          hasBoundaryAt]
        rintro ⟨k, hk⟩
        cases k with
        | zero => simp [utf8Len] at hk
        | succ k' =>
          rw [List.take_succ_cons, utf8Len_cons] at hk
          have h4 := Char.utf8Size_le_four c
          omega

/-- A sequence shorter than `n` bytes has no boundary at `n`. -/
theorem not_hasBoundaryAt_of_len_lt (cs : List Char) (n : Nat)
    (h : utf8Len cs < n) : ¬hasBoundaryAt cs n := by
  rintro ⟨k, hk⟩
  have := utf8Len_take_le cs k
  omega

/-! ## Claims -/

/-- **C9.** The release-identifier normalization takes the byte slice
`[0..5]` of the `nixos-version` stdout: invalid UTF-8 is a propagated
error, and given valid UTF-8 the function panics — rather than returning
an error — exactly when no character boundary sits at byte 5 of the
decoded output, in particular whenever the output is shorter than 5
bytes. -/
theorem numverFromStdout_total_iff_boundary (bytes : List Nat) :
    (utf8DecodeAux bytes = none →
      numverFromStdout bytes = .err .utf8Error)
    ∧ (∀ cs, utf8DecodeAux bytes = some cs →
        ((numverFromStdout bytes = .panic ↔ ¬hasBoundaryAt cs 5)
          ∧ (utf8Len cs < 5 → numverFromStdout bytes = .panic)
          ∧ ∀ e, numverFromStdout bytes ≠ .err e)) := by
  constructor
  · intro h
    simp [numverFromStdout, h]
  · intro cs hcs
    have hiff : numverFromStdout bytes = .panic ↔ ¬hasBoundaryAt cs 5 := by
      rw [← takeBytesAux_isSome_iff]
      unfold numverFromStdout
      rw [hcs]
      cases h : takeBytesAux cs 5 <;> simp [h]
    refine ⟨hiff, ?_, ?_⟩
    · intro hlt
      exact hiff.mpr (not_hasBoundaryAt_of_len_lt cs 5 hlt)
    · intro e
      unfold numverFromStdout
      rw [hcs]
      cases h : takeBytesAux cs 5 <;> simp [h]

/-- Witness for C9 at the 4-byte output `"23.0"`: decoding succeeds but
the function panics (it does not return an error). -/
theorem numverFromStdout_total_iff_boundary_witness :
    numverFromStdout [50, 51, 46, 48] = .panic :=
  (((numverFromStdout_total_iff_boundary [50, 51, 46, 48]).2
    ['2', '3', '.', '0'] (by decide)).2.1) (by decide)

/-- **C7.** Version normalization maps the known rolling-release
identifier `"22.11"` to the literal token `unstable`; every other
identifier passes through verbatim, and the identifier fed to the
normalization is the decoded first-5-byte prefix of the raw
`nixos-version` output. -/
theorem normVersion_rolling_or_verbatim :
    normVersion "22.11" = "unstable"
    ∧ (∀ s, s ≠ "22.11" → normVersion s = s)
    ∧ (∀ bytes cs pre, utf8DecodeAux bytes = some cs →
        takeBytesAux cs 5 = some pre →
        numverFromStdout bytes = .ok (String.mk pre)) := by
  refine ⟨rfl, fun s hs => if_neg hs, fun bytes cs pre hcs hpre => ?_⟩
  simp [numverFromStdout, hcs, hpre]

/-- Witness for C7 at the output `"23.05.12"`: the sliced identifier is
`"23.05"` and it passes through normalization verbatim. -/
theorem normVersion_rolling_or_verbatim_witness :
    normVersion "23.05" = "23.05"
    ∧ numverFromStdout [50, 51, 46, 48, 53, 46, 49, 50] = .ok "23.05" :=
  ⟨normVersion_rolling_or_verbatim.2.1 "23.05" (by decide),
    by
      have := normVersion_rolling_or_verbatim.2.2
        [50, 51, 46, 48, 53, 46, 49, 50]
        ['2', '3', '.', '0', '5', '.', '1', '2'] ['2', '3', '.', '0', '5']
        (by decide) (by decide)
      simpa using this⟩

/-- The point lookup returns a version exactly when the table holds a
unique row for the attribute. -/
theorem lookup1_eq_some_iff (db : List PkgRow) (pkg v : String) :
    lookup1 db pkg = some v ↔
      ∃ r, db.filter (fun q => q.attr == pkg) = [r] ∧ r.version = v := by
  unfold lookup1
  split
  next x r heq => rw [heq]; simp
  next x hne =>
    constructor
    · intro h; exact absurd h (by simp)
    · rintro ⟨r, hr, -⟩; exact (hne r hr).elim

/-- **C5.** The result mapping of the query loop contains
`(identifier → version)` iff the identifier was declared and exactly one
row of the `pkgs` table carries that attribute (its version being the
mapped value); identifiers with zero or several matching rows are dropped
without an error. -/
theorem resolveOut_mem_iff (db : List PkgRow) (pkgs : List String)
    (id v : String) :
    (id, v) ∈ resolveOut db pkgs ↔
      id ∈ pkgs ∧
        ∃ r, db.filter (fun q => q.attr == id) = [r] ∧ r.version = v := by
  unfold resolveOut
  rw [List.mem_filterMap]
  constructor
  · rintro ⟨p, hp, hf⟩
    rcases hl : lookup1 db p with _ | w
    · rw [hl] at hf; simp at hf
    · rw [hl] at hf
      simp only [Option.map_some', Option.some.injEq, Prod.mk.injEq] at hf
      rcases hf with ⟨rfl, rfl⟩
      exact ⟨hp, (lookup1_eq_some_iff db p w).mp hl⟩
  · rintro ⟨hid, hr⟩
    exact ⟨id, hid, by rw [(lookup1_eq_some_iff db id v).mpr hr]; rfl⟩

/-- **C8 (evaluation at the failing input).** The extended-variant schema
of `nixospkgs` has the unique `attributes` index on `pkgs.attribute` and
the non-unique `pnames` index on `pkgs.pname`; but in the plain-variant
schema of `createdb`, the non-unique `pnames` index is declared on the
`attribute` column and no index at all covers `pname`. -/
theorem createdb_pnames_index_on_attribute :
    (⟨"attributes", "pkgs", "attribute", true⟩ : IndexDef) ∈ nixospkgsIndexes
    ∧ (⟨"pnames", "pkgs", "pname", false⟩ : IndexDef) ∈ nixospkgsIndexes
    ∧ (⟨"attributes", "pkgs", "attribute", true⟩ : IndexDef) ∈ createdbIndexes
    ∧ (⟨"pnames", "pkgs", "attribute", false⟩ : IndexDef) ∈ createdbIndexes
    ∧ (∀ i ∈ createdbIndexes, i.unique = false → i.column = "attribute")
    ∧ ¬(∃ i ∈ createdbIndexes, i.column = "pname") := by
  decide

/-- **C6.** The extended-variant transform yields, for every document
entry, a `meta` row whose boolean flags are `1` exactly when the source
field is `some true` and `0` when it is `some false` or absent; whose
homepage is the first element of a list source, a scalar source itself,
and an empty cell when absent; and whose maintainers/license/platforms
are the JSON re-serialization of the source value (the serializer is
total, so the empty-text fallback for a serialization failure is never
exercised), with an empty cell when the field is absent. -/
theorem metaTuple_transform (doc : NixosPkgList) (pkg : String)
    (data : NixosPkg) (h : (pkg, data) ∈ doc.packages) :
    metaTuple pkg data ∈ metaRows doc
    ∧ (metaTuple pkg data).broken
        = (if data.meta.broken = some true then 1 else 0)
    ∧ (metaTuple pkg data).insecure
        = (if data.meta.insecure = some true then 1 else 0)
    ∧ (metaTuple pkg data).unsupported
        = (if data.meta.unsupported = some true then 1 else 0)
    ∧ (metaTuple pkg data).unfree
        = (if data.meta.unfree = some true then 1 else 0)
    ∧ (∀ s, data.meta.homepage = some (StrOrVec.Single s) →
        (metaTuple pkg data).homepage = some s)
    ∧ (∀ s ss, data.meta.homepage = some (StrOrVec.List (s :: ss)) →
        (metaTuple pkg data).homepage = some s)
    ∧ (data.meta.homepage = none → (metaTuple pkg data).cells.getD 7 "?" = "")
    ∧ (∀ j, data.meta.maintainers = some j →
        (metaTuple pkg data).maintainers = some j.render)
    ∧ (∀ j, data.meta.license = some j →
        (metaTuple pkg data).license = some j.render)
    ∧ (∀ j, data.meta.platforms = some j →
        (metaTuple pkg data).platforms = some j.render)
    ∧ (∀ j : Json, jsonToString j = Except.ok j.render)
    ∧ (data.meta.maintainers = none →
        (metaTuple pkg data).cells.getD 8 "?" = "") := by
  have hflag : ∀ o : Option Bool, boolFlag o = if o = some true then 1 else 0 := by
    rintro (_ | ⟨_ | _⟩) <;> simp [boolFlag]
  refine ⟨List.mem_map.mpr ⟨(pkg, data), h, rfl⟩,
    hflag _, hflag _, hflag _, hflag _, ?_, ?_, ?_, ?_, ?_, ?_,
    fun j => rfl, ?_⟩
  · intro s hs; simp [metaTuple, hs]
  · intro s ss hs; simp [metaTuple, hs]
  · intro hs; simp [metaTuple, MetaRow.cells, hs]
  · intro j hj; simp [metaTuple, jsonField, jsonToString, hj]
  · intro j hj; simp [metaTuple, jsonField, jsonToString, hj]
  · intro j hj; simp [metaTuple, jsonField, jsonToString, hj]
  · intro hs; simp [metaTuple, MetaRow.cells, jsonField, hs]

/-- Witness for C6 at the spec's scenario: `broken = 0`,
`homepage = "https://x"`, and maintainers re-serialized. -/
theorem metaTuple_transform_witness :
    (metaTuple "pkgA" scenarioPkg).broken = 0
    ∧ (metaTuple "pkgA" scenarioPkg).homepage = some "https://x"
    ∧ (metaTuple "pkgA" scenarioPkg).maintainers = some "[\"m\"]" := by
  have h := metaTuple_transform scenarioDoc "pkgA" scenarioPkg
    (List.Mem.head _)
  refine ⟨h.2.1.trans (by decide), ?_, ?_⟩
  · exact h.2.2.2.2.2.2.1 "https://x" ["https://y"] rfl
  · exact (h.2.2.2.2.2.2.2.2.1 (Json.arr [Json.str "m"]) rfl).trans (by decide)

/-- `specUnion` unfolds one source at a time. -/
theorem specUnion_cons (g : String → Except Unit (List String))
    (c : String) (cs : List String) :
    specUnion g (c :: cs)
      = (match g c with
          | .ok vs => vs.toFinset
          | .error _ => (∅ : Finset String)) ∪ specUnion g cs := by
  simp [specUnion]

/-- When every source reads successfully the fold computes the
accumulated union of the parsed attribute sets. -/
theorem collectPkgsAux_map_ok
    (g : String → Except Unit (List String)) (acc : Finset String)
    (contents : List String) :
    collectPkgsAux g acc (contents.map Except.ok)
      = Except.ok (acc ∪ specUnion g contents) := by
  induction contents generalizing acc with
  | nil => simp [collectPkgsAux, specUnion]
  | cons c cs ih =>
    simp only [List.map_cons, collectPkgsAux]
    rcases hg : g c with e | vs
    · simp only [specUnion_cons, hg, ih]
      simp
    · simp only [specUnion_cons, hg, ih]
      simp [Finset.union_assoc]

/-- **C4 (counterexample).** A source that cannot be read does not
contribute `∅`: it aborts the whole collection.  With a reader that
parses every source to a singleton set, one unreadable source followed by
one readable source yields an error, not the union `{"a"}`. -/
theorem collectPkgs_unreadable_aborts :
    collectPkgs (fun c => Except.ok [c]) [Except.error (), Except.ok "a"]
      = Except.error ()
    ∧ ∀ s : Finset String,
        collectPkgs (fun c => Except.ok [c])
          [Except.error (), Except.ok "a"] ≠ Except.ok s := by
  refine ⟨rfl, fun s h => ?_⟩
  rw [show collectPkgs (fun c => Except.ok [c])
    [Except.error (), Except.ok "a"] = Except.error () from rfl] at h
  exact Except.noConfusion h

/-- **C4 (amended).** Over sources that all read successfully,
AttributeCollector returns exactly the set union `S₁ ∪ ... ∪ Sₙ`, an
unparsable source contributing `∅` without aborting; but a source that
cannot be *read* aborts the whole collection with an error. -/
theorem collectPkgs_union_and_read_abort
    (g : String → Except Unit (List String))
    (contents : List String) (reads : List (Except Unit String)) :
    collectPkgs g (contents.map Except.ok) = Except.ok (specUnion g contents)
    ∧ (Except.error () ∈ reads →
        collectPkgs g reads = Except.error ()) := by
  constructor
  · rw [collectPkgs, collectPkgsAux_map_ok]
    simp
  · intro hmem
    rw [collectPkgs]
    generalize (∅ : Finset String) = acc
    induction reads generalizing acc with
    | nil => cases hmem
    | cons r rest ih =>
      rcases List.mem_cons.mp hmem with hr | hr
      · rw [← hr]; rfl
      · rcases r with e | content
        · cases e; rfl
        · simp only [collectPkgsAux]
          rcases g content with e | vs
          · exact ih hr _
          · exact ih hr _

/-- Witness for C4 (amended) at two parsed sources — one of which fails
to parse — and at a read list containing an unreadable source. -/
theorem collectPkgs_union_and_read_abort_witness :
    collectPkgs (fun c => if c = "bad" then Except.error () else Except.ok [c])
        ([Except.ok "a", Except.ok "bad", Except.ok "b"])
      = Except.ok
          (specUnion
            (fun c => if c = "bad" then Except.error () else Except.ok [c])
            ["a", "bad", "b"])
    ∧ collectPkgs
        (fun c => if c = "bad" then Except.error () else Except.ok [c])
        [Except.ok "a", Except.error ()] = Except.error () := by
  have h := collectPkgs_union_and_read_abort
    (fun c => if c = "bad" then Except.error () else Except.ok [c])
    ["a", "bad", "b"] [Except.ok "a", Except.error ()]
  exact ⟨h.1, h.2 (by simp)⟩

/-- **C3.** When the marker content equals the resolved remote version
and the artifact exists, the cycle returns the existing artifact path and
leaves the file system unchanged (beyond ensuring the cache directory);
since the statement constrains none of the fetch/rebuild oracles of
`env`, the index document is not downloaded and the store is not
rebuilt. -/
theorem nixospkgs_cache_hit (env : Env) (fs : FS) (nv v : String)
    (h1 : numverStage env = .ok nv)
    (h2 : fs.cacheDirExists = true ∨ env.mkdirOk = true)
    (h3 : latestFromRedirect env = Except.ok v)
    (h4 : fs.marker = some v)
    (h5 : fs.artifactExists = true) :
    nixospkgs env fs = (.ok dbPath, { fs with cacheDirExists := true }) := by
  by_cases hd : fs.cacheDirExists
  · obtain ⟨d, m, a⟩ := fs
    simp_all [nixospkgs, ensureCacheDir, h1, h3]
  · rcases h2 with h2 | h2
    · exact absurd h2 hd
    · obtain ⟨d, m, a⟩ := fs
      simp_all [nixospkgs, ensureCacheDir, h1, h3]

/-- Witness for C3: with marker `"23.05.1234"` matching the resolved
version, the cycle cache-hits and changes nothing. -/
theorem nixospkgs_cache_hit_witness :
    nixospkgs env0 ⟨true, some "23.05.1234", true⟩
      = (.ok dbPath, ⟨true, some "23.05.1234", true⟩) :=
  nixospkgs_cache_hit env0 ⟨true, some "23.05.1234", true⟩ "23.05"
    "23.05.1234" (by decide) (Or.inl rfl) (by decide) rfl rfl


/-- A bulk import returns without error exactly when spawn, stdin write
and wait all succeed. -/
theorem runImport_ok_iff (sp : Subproc) :
    runImport sp = .ok () ↔ importOk sp = true := by
  rcases sp with ⟨sOk, wOk, wr⟩
  rcases sOk <;> rcases wOk <;> rcases wr with e | n <;>
    simp [runImport, importOk]

/-- On a cache miss reaching the fetch, the cycle reduces to the status
check and the rebuild. -/
theorem nixospkgs_miss_eq_rebuild (env : Env) (d a : Bool)
    (m : Option String) (nv v : String) (resp : FetchResp)
    (h1 : numverStage env = .ok nv)
    (h2 : d = true ∨ env.mkdirOk = true)
    (h3 : latestFromRedirect env = Except.ok v)
    (h4 : m = some v → a = false)
    (h5 : env.clientBuildOk = true)
    (h6 : env.fetchResult = .ok resp) :
    nixospkgs env ⟨d, m, a⟩
      = if resp.statusSuccess then rebuildStore env ⟨true, m, a⟩ v resp.body
        else (.err .fetchFailed, ⟨true, m, a⟩) := by
  have hhit : ∀ mm : Option String, (mm = some v → a = false) →
      (match mm with
        | some prevver => prevver == v && a
        | none => false) = false := by
    rintro (_ | p) h4p
    · rfl
    · by_cases hp : p = v
      · simp [hp, h4p (by rw [hp])]
      · simp [hp]
  cases d
  · rcases h2 with h2 | h2
    · exact Bool.noConfusion h2
    · simp [nixospkgs, h1, ensureCacheDir, h2, h3, hhit m h4, h5, h6]
  · simp [nixospkgs, h1, ensureCacheDir, h3, hhit m h4, h5, h6]

/-- A bulk import that fails as the code observes it — spawn, stdin
write or wait error — returns the propagated io error. -/
theorem runImport_fail (sp : Subproc) (h : importOk sp = false) :
    runImport sp = .error .ioError := by
  rcases sp with ⟨sOk, wOk, wr⟩
  rcases sOk <;> rcases wOk <;> rcases wr with e | n <;>
    simp_all [runImport, importOk]

/-- The only error a bulk import can return is the propagated io error. -/
theorem runImport_error_eq (sp : Subproc) (e : Err)
    (h : runImport sp = .error e) : e = .ioError := by
  rcases sp with ⟨sOk, wOk, wr⟩
  rcases sOk <;> rcases wOk <;> rcases wr with e2 | n <;>
    simp_all [runImport]

/-- If either bulk-import subprocess fails as the code observes one —
spawn, stdin write or wait error, of the `pkgs` or of the `meta` import —
the rebuild stops with an io error before touching the marker. -/
theorem rebuildStore_import_fail (env : Env) (m : Option String)
    (a : Bool) (v : String) (doc : NixosPkgList)
    (h8 : env.removeFileOk = true)
    (h9 : schemaStageOk env = true)
    (h11 : importOk env.pkgsImport = false
      ∨ importOk env.metaImport = false) :
    rebuildStore env ⟨true, m, a⟩ v (some doc)
      = (.err .ioError, ⟨true, m, true⟩) := by
  simp only [schemaStageOk, Bool.and_eq_true] at h9
  obtain ⟨⟨⟨⟨⟨⟨hdb, hcn⟩, hpt⟩, hmt⟩, hia⟩, hma⟩, hip⟩ := h9
  rcases h11 with h11 | h11
  · have hpi := runImport_fail env.pkgsImport h11
    cases a <;>
      simp [rebuildStore, rebuildRest, h8, hdb, hcn, hpt, hmt, hia, hma,
        hip, hpi]
  · have hmi := runImport_fail env.metaImport h11
    rcases hpi : runImport env.pkgsImport with e | u
    · have he := runImport_error_eq env.pkgsImport e hpi
      rw [he] at hpi
      cases a <;>
        simp [rebuildStore, rebuildRest, h8, hdb, hcn, hpt, hmt, hia, hma,
          hip, hpi]
    · cases u
      cases a <;>
        simp [rebuildStore, rebuildRest, h8, hdb, hcn, hpt, hmt, hia, hma,
          hip, hpi, hmi]

/-- The rebuild changes the marker only after the whole chain — schema,
decode, both bulk imports, marker truncation — has succeeded, and then
either writes the resolved version and returns the artifact path, or
fails in the final `write_all` leaving the marker truncated empty. -/
theorem rebuildRest_marker (env : Env) (d aa : Bool) (m : Option String)
    (latest : String) (body : Option NixosPkgList) :
    (rebuildRest env ⟨d, m, aa⟩ latest body).2.marker = m
    ∨ (schemaStageOk env = true
        ∧ (∃ doc, body = some doc)
        ∧ importOk env.pkgsImport = true
        ∧ importOk env.metaImport = true
        ∧ env.markerCreateOk = true
        ∧ ((env.markerWriteOk = true
            ∧ rebuildRest env ⟨d, m, aa⟩ latest body
              = (.ok dbPath, ⟨d, some latest, true⟩))
          ∨ (env.markerWriteOk = false
            ∧ rebuildRest env ⟨d, m, aa⟩ latest body
              = (.err .ioError, ⟨d, some "", true⟩)))) := by
  rcases hdb : env.createDbOk with _ | _
  · simp [rebuildRest, hdb]
  rcases hcn : env.connectOk with _ | _
  · simp [rebuildRest, hdb, hcn]
  rcases hpt : env.createPkgsTableOk with _ | _
  · simp [rebuildRest, hdb, hcn, hpt]
  rcases hmt : env.createMetaTableOk with _ | _
  · simp [rebuildRest, hdb, hcn, hpt, hmt]
  rcases hia : env.idxAttrOk with _ | _
  · simp [rebuildRest, hdb, hcn, hpt, hmt, hia]
  rcases hma : env.idxMetaAttrOk with _ | _
  · simp [rebuildRest, hdb, hcn, hpt, hmt, hia, hma]
  rcases hip : env.idxPnameOk with _ | _
  · simp [rebuildRest, hdb, hcn, hpt, hmt, hia, hma, hip]
  rcases hbody : body with _ | doc
  · simp [rebuildRest, hdb, hcn, hpt, hmt, hia, hma, hip, hbody]
  rcases hpi : runImport env.pkgsImport with e | u
  · simp [rebuildRest, hdb, hcn, hpt, hmt, hia, hma, hip, hbody, hpi]
  rcases hmi : runImport env.metaImport with e | u
  · simp [rebuildRest, hdb, hcn, hpt, hmt, hia, hma, hip, hbody, hpi, hmi]
  rcases hmc : env.markerCreateOk with _ | _
  · simp [rebuildRest, hdb, hcn, hpt, hmt, hia, hma, hip, hbody, hpi, hmi, hmc]
  right
  refine ⟨by simp [schemaStageOk, hdb, hcn, hpt, hmt, hia, hma, hip],
    ⟨doc, rfl⟩,
    (runImport_ok_iff _).mp (by cases u; exact hpi),
    (runImport_ok_iff _).mp (by cases u; exact hmi), rfl, ?_⟩
  rcases hmw : env.markerWriteOk with _ | _
  · right
    refine ⟨rfl, ?_⟩
    simp [rebuildRest, hdb, hcn, hpt, hmt, hia, hma, hip, hbody, hpi, hmi,
      hmc, hmw]
  · left
    refine ⟨rfl, ?_⟩
    simp [rebuildRest, hdb, hcn, hpt, hmt, hia, hma, hip, hbody, hpi, hmi,
      hmc, hmw]

/-- Lift of `rebuildRest_marker` over the delete step. -/
theorem rebuildStore_marker (env : Env) (d a : Bool) (m : Option String)
    (latest : String) (body : Option NixosPkgList) :
    (rebuildStore env ⟨d, m, a⟩ latest body).2.marker = m
    ∨ (schemaStageOk env = true
        ∧ (∃ doc, body = some doc)
        ∧ importOk env.pkgsImport = true
        ∧ importOk env.metaImport = true
        ∧ env.markerCreateOk = true
        ∧ ((env.markerWriteOk = true
            ∧ rebuildStore env ⟨d, m, a⟩ latest body
              = (.ok dbPath, ⟨d, some latest, true⟩))
          ∨ (env.markerWriteOk = false
            ∧ rebuildStore env ⟨d, m, a⟩ latest body
              = (.err .ioError, ⟨d, some "", true⟩)))) := by
  cases a
  · simp only [rebuildStore, Bool.false_eq_true, if_false]
    exact rebuildRest_marker env d false m latest body
  · rcases hrm : env.removeFileOk with _ | _
    · simp [rebuildStore, hrm]
    · simp only [rebuildStore, hrm, if_true]
      exact rebuildRest_marker env d false m latest body

/-- Either the cycle leaves marker and artifact untouched, or it reached
the rebuild through a resolved version and a success-status fetch. -/
theorem nixospkgs_frame_or_rebuild (env : Env) (fs : FS) :
    ((nixospkgs env fs).2.marker = fs.marker
      ∧ (nixospkgs env fs).2.artifactExists = fs.artifactExists)
    ∨ ∃ nv v resp,
        numverStage env = .ok nv
        ∧ latestFromRedirect env = Except.ok v
        ∧ env.clientBuildOk = true
        ∧ env.fetchResult = .ok resp
        ∧ resp.statusSuccess = true
        ∧ nixospkgs env fs
            = rebuildStore env { fs with cacheDirExists := true } v
                resp.body := by
  obtain ⟨d, m, a⟩ := fs
  rcases h1 : numverStage env with nv | e | _
  · rcases hd : d with _ | _
    · rcases hmk : env.mkdirOk with _ | _
      · left; simp [nixospkgs, h1, ensureCacheDir, hmk]
      · rcases h3 : latestFromRedirect env with e | v
        · left; simp [nixospkgs, h1, ensureCacheDir, hmk, h3]
        · rcases hhit : (match m with
            | some prevver => prevver == v && a
            | none => false) with _ | _
          · rcases hcb : env.clientBuildOk with _ | _
            · left; simp [nixospkgs, h1, ensureCacheDir, hmk, h3, hhit, hcb]
            · rcases hf : env.fetchResult with e | resp
              · left
                simp [nixospkgs, h1, ensureCacheDir, hmk, h3, hhit, hcb, hf]
              · rcases hst : resp.statusSuccess with _ | _
                · left
                  simp [nixospkgs, h1, ensureCacheDir, hmk, h3, hhit, hcb,
                    hf, hst]
                · right
                  exact ⟨nv, v, resp, rfl, rfl, rfl, rfl, hst, by
                    simp [nixospkgs, h1, ensureCacheDir, hmk, h3, hhit, hcb,
                      hf, hst]⟩
          · left; simp [nixospkgs, h1, ensureCacheDir, hmk, h3, hhit]
    · rcases h3 : latestFromRedirect env with e | v
      · left; simp [nixospkgs, h1, ensureCacheDir, h3]
      · rcases hhit : (match m with
          | some prevver => prevver == v && a
          | none => false) with _ | _
        · rcases hcb : env.clientBuildOk with _ | _
          · left; simp [nixospkgs, h1, ensureCacheDir, h3, hhit, hcb]
          · rcases hf : env.fetchResult with e | resp
            · left; simp [nixospkgs, h1, ensureCacheDir, h3, hhit, hcb, hf]
            · rcases hst : resp.statusSuccess with _ | _
              · left
                simp [nixospkgs, h1, ensureCacheDir, h3, hhit, hcb, hf, hst]
              · right
                exact ⟨nv, v, resp, rfl, rfl, rfl, rfl, hst, by
                  simp [nixospkgs, h1, ensureCacheDir, h3, hhit, hcb, hf,
                    hst]⟩
        · left; simp [nixospkgs, h1, ensureCacheDir, h3, hhit]
  · left; simp [nixospkgs, h1]
  · left; simp [nixospkgs, h1]


/-- **C10.** A non-success status on the index-document GET aborts the
cycle with an error and leaves every cache file unchanged (only the cache
directory may have been created); and the artifact's existence changes in
no cycle that has not observed a success status. -/
theorem nixospkgs_failed_fetch_preserves_files (env : Env) (fs : FS) :
    (∀ nv v resp,
      numverStage env = .ok nv →
      (fs.cacheDirExists = true ∨ env.mkdirOk = true) →
      latestFromRedirect env = Except.ok v →
      (fs.marker = some v → fs.artifactExists = false) →
      env.clientBuildOk = true →
      env.fetchResult = .ok resp →
      resp.statusSuccess = false →
      nixospkgs env fs
        = (.err .fetchFailed, { fs with cacheDirExists := true }))
    ∧ ((nixospkgs env fs).2.artifactExists ≠ fs.artifactExists →
        ∃ resp, env.fetchResult = .ok resp ∧ resp.statusSuccess = true) := by
  obtain ⟨d, m, a⟩ := fs
  constructor
  · intro nv v resp h1 h2 h3 h4 h5 h6 h7
    rw [nixospkgs_miss_eq_rebuild env d a m nv v resp h1 h2 h3 h4 h5 h6, h7]
    simp
  · intro hart
    rcases nixospkgs_frame_or_rebuild env ⟨d, m, a⟩ with
      ⟨hm, ha⟩ | ⟨nv, v, resp, h1, h3, hcb, hf, hst, heq⟩
    · exact absurd ha hart
    · exact ⟨resp, hf, hst⟩

/-- Witness for C10: a stale cache and a 404-style response leave marker
and artifact untouched. -/
theorem nixospkgs_failed_fetch_preserves_files_witness :
    nixospkgs { env0 with fetchResult := .ok ⟨false, none⟩ } fs0
      = (.err .fetchFailed, ⟨true, some "22.05", true⟩) :=
  (nixospkgs_failed_fetch_preserves_files
      { env0 with fetchResult := .ok ⟨false, none⟩ } fs0).1
    "23.05" "23.05.1234" ⟨false, none⟩ (by decide) (Or.inl rfl) (by decide)
    (by decide) rfl rfl rfl

/-- **C2 (counterexample).** A cycle whose `pkgs` bulk-import subprocess
starts and exits with status 1 does *not* abort: the run returns the
artifact path and the marker is overwritten — `let _status = cmd.wait()?`
discards the exit status. -/
theorem nixospkgs_abnormal_exit_not_error :
    env0badPkgs.pkgsImport.waitResult = Except.ok 1
    ∧ nixospkgs env0badPkgs fs0
        = (.ok dbPath, ⟨true, some "23.05.1234", true⟩)
    ∧ fs0.marker = some "22.05" :=
  ⟨rfl, by decide, rfl⟩

/-- **C2 (amended).** If either bulk-import subprocess fails in a way
the code observes — it fails to start, or its stdin write or its wait
returns an io error, for the `pkgs` as for the `meta` import — the cycle
aborts with the propagated error and the marker is not written; but the
exit status of a started subprocess is discarded: the cycle's result is
identical for any two exit codes of either subprocess. -/
theorem nixospkgs_subprocess_error_handling (env : Env) (fs : FS) :
    (∀ nv v resp doc,
      numverStage env = .ok nv →
      (fs.cacheDirExists = true ∨ env.mkdirOk = true) →
      latestFromRedirect env = Except.ok v →
      (fs.marker = some v → fs.artifactExists = false) →
      env.clientBuildOk = true →
      env.fetchResult = .ok resp →
      resp.statusSuccess = true →
      resp.body = some doc →
      env.removeFileOk = true →
      schemaStageOk env = true →
      (importOk env.pkgsImport = false
        ∨ importOk env.metaImport = false) →
      nixospkgs env fs
        = (.err .ioError,
            { fs with cacheDirExists := true, artifactExists := true }))
    ∧ (∀ n m', nixospkgs
          { env with pkgsImport :=
              { env.pkgsImport with waitResult := Except.ok n } } fs
        = nixospkgs
          { env with pkgsImport :=
              { env.pkgsImport with waitResult := Except.ok m' } } fs)
    ∧ (∀ n m', nixospkgs
          { env with metaImport :=
              { env.metaImport with waitResult := Except.ok n } } fs
        = nixospkgs
          { env with metaImport :=
              { env.metaImport with waitResult := Except.ok m' } } fs) := by
  refine ⟨?_, fun n m' => rfl, fun n m' => rfl⟩
  intro nv v resp doc h1 h2 h3 h4 h5 h6 h7 hb h8 h9 h11
  obtain ⟨d, m, a⟩ := fs
  rw [nixospkgs_miss_eq_rebuild env d a m nv v resp h1 h2 h3 h4 h5 h6, h7]
  simp only [if_true]
  rw [hb, rebuildStore_import_fail env m a v doc h8 h9 h11]

/-- Witness for C2 (amended): a cycle whose `pkgs` import cannot spawn,
and one whose `meta` import spawns but whose stdin write fails, both
error out with the marker untouched. -/
theorem nixospkgs_subprocess_error_handling_witness :
    nixospkgs { env0 with pkgsImport := ⟨false, true, .ok 0⟩ } fs0
      = (.err .ioError, ⟨true, some "22.05", true⟩)
    ∧ nixospkgs { env0 with metaImport := ⟨true, false, .ok 0⟩ } fs0
      = (.err .ioError, ⟨true, some "22.05", true⟩) :=
  ⟨(nixospkgs_subprocess_error_handling
      { env0 with pkgsImport := ⟨false, true, .ok 0⟩ } fs0).1
    "23.05" "23.05.1234" ⟨true, some ⟨[]⟩⟩ ⟨[]⟩ (by decide) (Or.inl rfl)
    (by decide) (by decide) rfl rfl rfl rfl rfl (by decide)
    (Or.inl (by decide)),
   (nixospkgs_subprocess_error_handling
      { env0 with metaImport := ⟨true, false, .ok 0⟩ } fs0).1
    "23.05" "23.05.1234" ⟨true, some ⟨[]⟩⟩ ⟨[]⟩ (by decide) (Or.inl rfl)
    (by decide) (by decide) rfl rfl rfl rfl rfl (by decide)
    (Or.inr (by decide))⟩

/-- **C1 (counterexample).** A cycle whose `meta` bulk load fails — the
subprocess exits with status 2, so nothing was imported — still
overwrites the marker with the resolved version and reports success. -/
theorem nixospkgs_marker_written_despite_failed_bulk_load :
    env0badMeta.metaImport.waitResult = Except.ok 2
    ∧ nixospkgs env0badMeta fs0
        = (.ok dbPath, ⟨true, some "23.05.1234", true⟩)
    ∧ fs0.marker = some "22.05" :=
  ⟨rfl, by decide, rfl⟩

/-- **C1 (amended).** The marker survives any failure of version
resolution, fetch, decode, schema creation, or of a bulk load *as the
code can observe one* (spawn, stdin write or wait error — an abnormal
exit status is not observed); conversely the marker changes only in a
cycle whose rebuild ran to completion, receiving the resolved version on
a successful final write and being left truncated empty if that final
write itself fails. -/
theorem nixospkgs_marker_gating (env : Env) (fs : FS) :
    ((versionResolutionFails env ∨ fetchFails env ∨ decodeFails env
        ∨ schemaFails env ∨ bulkImportFailsAsCoded env) →
      (nixospkgs env fs).2.marker = fs.marker)
    ∧ ((nixospkgs env fs).2.marker ≠ fs.marker →
        (∃ nv, numverStage env = .ok nv)
        ∧ env.clientBuildOk = true
        ∧ schemaStageOk env = true
        ∧ importOk env.pkgsImport = true
        ∧ importOk env.metaImport = true
        ∧ (∃ resp doc, env.fetchResult = .ok resp
            ∧ resp.statusSuccess = true ∧ resp.body = some doc)
        ∧ ∃ v, latestFromRedirect env = Except.ok v
            ∧ ((env.markerWriteOk = true
                ∧ (nixospkgs env fs).1 = .ok dbPath
                ∧ (nixospkgs env fs).2.marker = some v)
              ∨ (env.markerWriteOk = false
                ∧ (nixospkgs env fs).2.marker = some ""))) := by
  obtain ⟨d, m, a⟩ := fs
  have part2 : (nixospkgs env ⟨d, m, a⟩).2.marker ≠ m →
      (∃ nv, numverStage env = .ok nv)
      ∧ env.clientBuildOk = true
      ∧ schemaStageOk env = true
      ∧ importOk env.pkgsImport = true
      ∧ importOk env.metaImport = true
      ∧ (∃ resp doc, env.fetchResult = .ok resp
          ∧ resp.statusSuccess = true ∧ resp.body = some doc)
      ∧ ∃ v, latestFromRedirect env = Except.ok v
          ∧ ((env.markerWriteOk = true
              ∧ (nixospkgs env ⟨d, m, a⟩).1 = .ok dbPath
              ∧ (nixospkgs env ⟨d, m, a⟩).2.marker = some v)
            ∨ (env.markerWriteOk = false
              ∧ (nixospkgs env ⟨d, m, a⟩).2.marker = some "")) := by
    intro hne
    rcases nixospkgs_frame_or_rebuild env ⟨d, m, a⟩ with
      ⟨hm, ha⟩ | ⟨nv, v, resp, h1, h3, hcb, hf, hst, heq⟩
    · exact absurd hm hne
    · rcases rebuildStore_marker env true a m v resp.body with
        hm2 | ⟨hsch, ⟨doc, hdoc⟩, hpi, hmi, hmc, hbranch⟩
      · rw [heq] at hne
        exact absurd hm2 hne
      · refine ⟨⟨nv, h1⟩, hcb, hsch, hpi, hmi,
          ⟨resp, doc, hf, hst, hdoc⟩, v, h3, ?_⟩
        rcases hbranch with ⟨hw, heq2⟩ | ⟨hw, heq2⟩
        · exact Or.inl ⟨hw, by rw [heq, heq2], by rw [heq, heq2]⟩
        · exact Or.inr ⟨hw, by rw [heq, heq2]⟩
  refine ⟨?_, part2⟩
  intro hfail
  by_contra hne
  obtain ⟨⟨nv, h1⟩, hcb, hsch, hpi, hmi, ⟨resp, doc, hf, hst, hdoc⟩,
    v, h3, -⟩ := part2 hne
  rcases hfail with hv | hfetch | hdec | hs | hbulk
  · rcases hv with hv | hv
    · exact hv nv h1
    · exact hv v h3
  · rcases hfetch with hc | hc | ⟨resp2, hr, hr2⟩
    · rw [hcb] at hc
      exact Bool.noConfusion hc
    · rw [hf] at hc
      exact Except.noConfusion hc
    · rw [hf] at hr
      injection hr with hr
      rw [← hr] at hr2
      rw [hst] at hr2
      exact Bool.noConfusion hr2
  · rcases hdec with ⟨resp2, hr, hr2⟩
    rw [hf] at hr
    injection hr with hr
    rw [← hr] at hr2
    rw [hdoc] at hr2
    exact Option.noConfusion hr2
  · unfold schemaFails at hs
    rw [hsch] at hs
    exact Bool.noConfusion hs
  · rcases hbulk with hbk | hbk
    · rw [hpi] at hbk
      exact Bool.noConfusion hbk
    · rw [hmi] at hbk
      exact Bool.noConfusion hbk

/-- Witness for C1 (amended): a cycle whose HTTP client cannot even be
built (a fetch-stage failure) leaves the stale marker in place. -/
theorem nixospkgs_marker_gating_witness :
    (nixospkgs { env0 with clientBuildOk := false } fs0).2.marker
      = fs0.marker :=
  (nixospkgs_marker_gating { env0 with clientBuildOk := false } fs0).1
    (Or.inr (Or.inl (Or.inl rfl)))

end NixData
